import Mathlib

/-!
# Verification of the clause builder (`Clause.ts`) of the ecmarkup fork

This file gives a shallow embedding, in Lean 4, of the clause-tree builder of
the repository (the file containing `class Clause extends Builder`: the special
kinds table, the structured-header compilation steps that live in that file,
`buildNotes`/`buildExamples`, `canHaveEffect`, `Clause.enter`'s numbering of
introduction nodes, and `Clause.exit`'s bibliography registration), together
with theorems checking the natural-language specification against it.

JavaScript strings are modelled as `List Char` where index arithmetic matters
(`indexOf` / `lastIndexOf` / `substring` / `trim`), and as Lean `String`
elsewhere.  Collaborators that are not part of the source tree (the biblio
registry, the header grammar) are modelled from the specification's own words;
each such definition says so in its doc comment.
-/

namespace Ecmarkup

/-- The closed list of algorithm-like clause kinds (`aoidTypes` in the source). -/
def aoidTypes : List String :=
  [ "abstract operation",
    "sdo",
    "syntax-directed operation",
    "host-defined abstract operation",
    "implementation-defined abstract operation",
    "numeric method" ]

/-- `SPECIAL_KINDS_MAP` from the source: insertion-ordered map from
special-kind attribute name to display name. -/
def SPECIAL_KINDS_MAP : List (String × String) :=
  [ ("normative-optional", "Normative Optional"),
    ("legacy", "Legacy"),
    ("deprecated", "Deprecated") ]

/-- `SPECIAL_KINDS = [...SPECIAL_KINDS_MAP.keys()]`. -/
def SPECIAL_KINDS : List String := SPECIAL_KINDS_MAP.map Prod.fst

/-- Modelled from the spec: the `Type` of the biblio module (not under the
source tree) is "a recursive tagged tree — named/primitive, list-of, record,
union-of-N, or completion-wrapper". -/
inductive Ty where
  | named (name : String) : Ty
  | listOf (element : Ty) : Ty
  | record (fields : List (String × Ty)) : Ty
  | unionOf (types : List Ty) : Ty
  | completion (inner : Ty) : Ty

/-- The `kind` tag of a type node, as compared against by `Clause.exit`
(`'union'`, `'completion'`). -/
def Ty.kind : Ty → String
  | .named _ => "named"
  | .listOf _ => "list"
  | .record _ => "record"
  | .unionOf _ => "union"
  | .completion _ => "completion"

/-- The `types` member list of a union node (`signature.return.types`). -/
def Ty.types : Ty → List Ty
  | .unionOf ts => ts
  | _ => []

/-- A compiled signature: required parameters, optional parameters, return
type (`Signature` of the biblio module, as used by this file). -/
structure Signature where
  parameters : List (String × Option Ty)
  optionalParameters : List (String × Option Ty)
  ret : Option Ty

/-- A bibliography entry: the two variants built by `Clause.exit`. -/
inductive BiblioEntry where
  | clause (id : String) (aoid : Option String) (title : Option String)
      (titleHTML : String) (number : String) : BiblioEntry
  | op (aoid : String) (refId : String) (kind : Option String)
      (signature : Option Signature) (effects : List String)
      (skipGlobalChecks : Bool) (skipReturnChecks : Bool) : BiblioEntry

/-- The aoid key an entry is registered under: op entries are keyed by their
aoid, clause entries are keyed by their id (so they carry no aoid key). -/
def BiblioEntry.opAoid : BiblioEntry → Option String
  | .op a _ _ _ _ _ _ => some a
  | .clause _ _ _ _ _ => none

/-- Is this entry an op entry? -/
def BiblioEntry.isOp : BiblioEntry → Bool
  | .op _ _ _ _ _ _ _ => true
  | .clause _ _ _ _ _ => false

/-- The biblio store: entries tagged with the namespace they were added to,
in insertion order. -/
def Biblio := List (String × BiblioEntry)

/-- Modelled from the spec: `Biblio.keysForNamespace` (the biblio module is
not under the source tree) "returns the set of aoid keys directly present" in
a namespace; entries are "keyed by aoid (op) or id (clause)", so the aoid
keys are those of the op entries added to that namespace. -/
def keysForNamespace (ns : String) (b : List (String × BiblioEntry)) : List String :=
  b.filterMap fun p => if p.1 == ns then p.2.opAoid else none

/-- The fields of a `Clause` that its `exit` handler reads.  `nsp` is the
clause's `namespace` field (a Lean keyword). -/
structure Clause where
  id : String
  nsp : String
  aoid : Option String
  type : Option String
  title : Option String
  titleHTML : String
  number : String
  signature : Option Signature
  effects : List String
  skipGlobalChecks : Bool
  skipReturnChecks : Bool

/-- JavaScript truthiness of `clause.aoid` (a string is truthy iff non-empty). -/
def optTruthy : Option String → Bool
  | none => false
  | some s => s != ""

/-- The op entry's `kind`:
`clause.type != null && aoidTypes.includes(clause.type) ? clause.type : undefined`,
then the `'sdo'` shorthand is widened to `'syntax-directed operation'`. -/
def opKind (type : Option String) : Option String :=
  match type with
  | some t =>
      if aoidTypes.contains t then
        if t == "sdo" then some "syntax-directed operation" else some t
      else none
  | none => none

/-- The completion-union test of `Clause.exit`:
`signature?.return?.kind === 'union' && types.some completion && types.some non-completion`. -/
def completionUnionWarn (sig : Option Signature) : Bool :=
  match sig with
  | none => false
  | some s =>
      match s.ret with
      | none => false
      | some r =>
          r.kind == "union"
            && r.types.any (fun t => t.kind == "completion")
            && r.types.any (fun t => !(t.kind == "completion"))

/-- The display names of the special-kind attributes present on the node:
`SPECIAL_KINDS.filter(kind => node.hasAttribute(kind)).map(kind => SPECIAL_KINDS_MAP.get(kind))`.
`nodeAttrs` is the list of attribute names present on the node. -/
def specialAttributes (nodeAttrs : List String) : List String :=
  (SPECIAL_KINDS.filter fun k => nodeAttrs.contains k).map
    fun k => ((SPECIAL_KINDS_MAP.lookup k).getD "")

/-- The text of the `attributes-tag` label `Clause.exit` prepends to the node,
`none` when no special-kind attribute is present. -/
def tagText (nodeAttrs : List String) : Option String :=
  let attributes := specialAttributes nodeAttrs
  if attributes.length > 0 then some (String.intercalate ", " attributes) else none

/-- The clause-type biblio entry `Clause.exit` always adds. -/
def clauseEntryOf (c : Clause) : BiblioEntry :=
  .clause c.id c.aoid c.title c.titleHTML c.number

/-- The op-type biblio entry `Clause.exit` builds for a clause with aoid `a`. -/
def opEntryOf (a : String) (c : Clause) : BiblioEntry :=
  .op a c.id (opKind c.type) c.signature c.effects c.skipGlobalChecks c.skipReturnChecks

/-- The observable outcome of one `Clause.exit` call: the biblio after the
call, the diagnostics emitted (by rule id, in order), and the special-kinds
label text (if any) prepended to the node. -/
structure ExitResult where
  biblio : List (String × BiblioEntry)
  warnings : List String
  tag : Option String

/-- The op entries `Clause.exit` adds (zero or one): when the clause's aoid
is truthy and not already a key of `spec.namespace`, the op entry goes into
`spec.namespace`. -/
def exitOps (specNs : String) (biblio : List (String × BiblioEntry)) (c : Clause) :
    List (String × BiblioEntry) :=
  if optTruthy c.aoid then
    if (keysForNamespace specNs biblio).contains (c.aoid.getD "") then []
    else [(specNs, opEntryOf (c.aoid.getD "") c)]
  else []

/-- The diagnostics `Clause.exit` emits: `duplicate-definition` when the
truthy aoid already exists in `spec.namespace`, else `completion-union` when
the return type is a mixed union. -/
def exitWarns (specNs : String) (biblio : List (String × BiblioEntry)) (c : Clause) :
    List String :=
  if optTruthy c.aoid then
    if (keysForNamespace specNs biblio).contains (c.aoid.getD "") then
      ["duplicate-definition"]
    else if completionUnionWarn c.signature then ["completion-union"] else []
  else []

/-- Shallow embedding of `Clause.exit` (bibliography/diagnostic part).
`specNs` is `spec.namespace`.  Faithful to the source: the duplicate check
consults `spec.namespace`, the op entry (when the aoid is fresh) and the
clause entry are both added to `spec.namespace` ("clauses are always at the
spec-level namespace"), and the completion-union diagnostic fires on a mixed
union return type on the non-duplicate path. -/
def Clause.exit (specNs : String) (biblio : List (String × BiblioEntry))
    (c : Clause) (nodeAttrs : List String) : ExitResult :=
  { biblio := biblio ++ exitOps specNs biblio c ++ [(specNs, clauseEntryOf c)]
    warnings := exitWarns specNs biblio c
    tag := tagText nodeAttrs }

/-! ## The sdo header stripping (`buildStructuredHeader`, rendering step)

JavaScript string operations are modelled on `List Char` (JS code-unit
sequences; all inputs of interest are ASCII). -/

/-- `String.prototype.indexOf`-style search: the position of the first
occurrence of `c`, if any. -/
def jsIndexOfAux (c : Char) : List Char → Option Nat
  | [] => none
  | a :: as => if a = c then some 0 else (jsIndexOfAux c as).map (· + 1)

/-- JS `s.indexOf(c)`: first index, `-1` when absent. -/
def jsIndexOf (c : Char) (s : List Char) : Int :=
  match jsIndexOfAux c s with
  | some n => (n : Int)
  | none => -1

/-- JS `s.lastIndexOf(c)`: last index, `-1` when absent.  The last occurrence
of `c` in `s` sits at `s.length - 1 - k` where `k` is the index of the first
occurrence in the reversal. -/
def jsLastIndexOf (c : Char) (s : List Char) : Int :=
  match jsIndexOfAux c s.reverse with
  | some n => ((s.length - 1 - n : Nat) : Int)
  | none => -1

/-- JS `s.trim()`: leading and trailing whitespace removed. -/
def jsTrim (s : List Char) : List Char :=
  ((s.dropWhile Char.isWhitespace).reverse.dropWhile Char.isWhitespace).reverse

/-- The header rewrite of the sdo branch of `buildStructuredHeader`:
`(currentHeader.substring(0, currentHeader.indexOf('(')) +
  currentHeader.substring(currentHeader.lastIndexOf(')') + 1)).trim()`
(JS `substring` clamps negative positions to `0`, as `Int.toNat` does). -/
def sdoStripHeader (s : List Char) : List Char :=
  jsTrim (s.take (jsIndexOf '(' s).toNat ++ s.drop (jsLastIndexOf ')' s + 1).toNat)

/-- The header text `buildStructuredHeader` leaves in the document:
the sdo branch strips the parameter list when `type === 'sdo'` and the
current header contains `'('`; otherwise a non-null `formattedHeader`
replaces the header content; otherwise the content is untouched.
(The follow-up DOM step that re-trims the inner HTML of a single
INS/DEL/MARK child element is below the text level modelled here.) -/
def renderedHeader (type : Option String) (formattedHeader : Option (List Char))
    (innerHTML : List Char) : List Char :=
  let currentHeader := formattedHeader.getD innerHTML
  if type == some "sdo" && currentHeader.contains '(' then
    sdoStripHeader currentHeader
  else
    formattedHeader.getD innerHTML

/-- Spec-side reformulation of the strip: everything from the first `'('`
through the last `')'` removed, i.e. the prefix before the first `'('`
followed by the suffix after the last `')'`, trimmed. -/
def specSdoStrip (s : List Char) : List Char :=
  jsTrim (s.takeWhile (fun x => x != '(') ++ (s.reverse.takeWhile (fun x => x != ')')).reverse)

/-! ## Aoid auto-assignment (`buildStructuredHeader`, final step) -/

/-- Outcome of the aoid-assignment step: the clause's aoid afterwards, the
`aoid` attribute value written to the node (if the step wrote one), and the
diagnostics emitted. -/
structure AoidAssignResult where
  aoid : Option String
  setAttr : Option String
  warnings : List String

/-- Shallow embedding of the aoid-assignment step of `buildStructuredHeader`:
when not a redefinition, a pre-existing `aoid` attribute draws a
`header-format` warning; otherwise a non-null parsed name whose declared kind
is one of `aoidTypes` is written to the node and becomes the clause's aoid. -/
def assignAoid (redefinition hasAoidAttr : Bool) (priorAoid : Option String)
    (name : Option String) (type : Option String) : AoidAssignResult :=
  if !redefinition then
    if hasAoidAttr then
      { aoid := priorAoid, setAttr := none, warnings := ["header-format"] }
    else
      match name, type with
      | some n, some t =>
          if aoidTypes.contains t then
            { aoid := some n, setAttr := some n, warnings := [] }
          else
            { aoid := priorAoid, setAttr := none, warnings := [] }
      | _, _ => { aoid := priorAoid, setAttr := none, warnings := [] }
  else { aoid := priorAoid, setAttr := none, warnings := [] }

/-! ## Parse-failure degradation (`buildStructuredHeader`, parse step) -/

/-- A parameter recovered by the header grammar (`ParsedHeader` shape):
name, optional inline type string with its offset, and the wrapping tag
(`'del'` marks a removed prior revision). -/
structure ParsedParam where
  name : String
  type : Option String
  typeOffset : Nat
  wrappingTag : Option String

/-- A successfully parsed header (`ParsedHeader` shape). -/
structure ParsedHeader where
  params : List ParsedParam
  optionalParams : List ParsedParam
  returnType : Option String
  returnOffset : Nat

/-- Modelled from the spec: what `formatHeader` (header-parser module, not
under the source tree) hands back to `buildStructuredHeader`. -/
structure FormatHeaderResult where
  name : Option String
  formattedHeader : Option (List Char)
  formattedParams : Option String
  formattedReturnType : Option String

/-- The result of `parseH1` as consumed by `buildStructuredHeader`: failure,
or a parsed header together with the formatted pieces `formatHeader` derives
from it. -/
inductive ParseResult where
  | failure : ParseResult
  | success (ph : ParsedHeader) (formatted : FormatHeaderResult) : ParseResult

/-- Modelled from the spec: `formatHeader` (header-parser module, not under
the source tree).  On a grammar failure "the literal header content is kept,
no signature is attached", so no name, no reformatted header and no formatted
parameter text come back; on success the parsed pieces come back. -/
def formatHeader : ParseResult → FormatHeaderResult
  | .failure => { name := none, formattedHeader := none,
                  formattedParams := none, formattedReturnType := none }
  | .success _ fr => fr

/-- `parseType` of the source: runs the type parser (an external module,
passed here as `tp`; errors carry a byte offset) and shifts a failing offset
by the position of the substring in the header source. -/
def parseTypeAt (tp : String → Except Nat Ty) (type : String) (offset : Nat) :
    Except Nat Ty :=
  match tp type with
  | .ok t => .ok t
  | .error o => .error (o + offset)

/-- The parameter-list compilation inside `parsedHeaderToSignature`:
each kept parameter's type string is compiled, the first failure aborting. -/
def compileParams (tp : String → Except Nat Ty) :
    List ParsedParam → Except Nat (List (String × Option Ty))
  | [] => .ok []
  | p :: ps => do
      let t ← match p.type with
        | none => pure none
        | some ty => (parseTypeAt tp ty p.typeOffset).map some
      let rest ← compileParams tp ps
      pure ((p.name, t) :: rest)

/-- `parsedHeaderToSignature` of the source: parameters wrapped in `del` are
excluded, the remaining type strings and the return type are compiled. -/
def parsedHeaderToSignature (tp : String → Except Nat Ty) (ph : ParsedHeader) :
    Except Nat Signature := do
  let ps ← compileParams tp (ph.params.filter fun p => p.wrappingTag != some "del")
  let ops ← compileParams tp (ph.optionalParams.filter fun p => p.wrappingTag != some "del")
  let ret ← match ph.returnType with
    | none => pure none
    | some r => (parseTypeAt tp r ph.returnOffset).map some
  pure { parameters := ps, optionalParameters := ops, ret := ret }

/-- The signature/preamble outcome of `buildStructuredHeader`. -/
structure SHOutcome where
  signature : Option Signature
  warnings : List String
  preambleName : String
  preambleParams : String

/-- Shallow embedding of the parse/signature/preamble part of
`buildStructuredHeader`: on parse success the signature is compiled (a type
parse error is caught as a `type-parsing` diagnostic, leaving the signature
as it was — `null` from the constructor); on parse failure nothing is
attempted; the preamble receives `name ?? 'UNKNOWN'` and
`formattedParams ?? 'UNPARSEABLE ARGUMENTS'`. -/
def buildStructuredHeaderSig (tp : String → Except Nat Ty) (pr : ParseResult) :
    SHOutcome :=
  let sigAndWarns : Option Signature × List String :=
    match pr with
    | .failure => (none, [])
    | .success ph _ =>
        match parsedHeaderToSignature tp ph with
        | .ok s => (some s, [])
        | .error _ => (none, ["type-parsing"])
  let f := formatHeader pr
  { signature := sigAndWarns.1
    warnings := sigAndWarns.2
    preambleName := f.name.getD "UNKNOWN"
    preambleParams := f.formattedParams.getD "UNPARSEABLE ARGUMENTS" }

/-! ## `canHaveEffect`, `enter` numbering, notes and examples -/

/-- JS `String.prototype.startsWith`: a code-unit prefix test. -/
def jsStartsWith (s pre : String) : Bool :=
  pre.toList.isPrefixOf s.toList

/-- `Clause.prototype.canHaveEffect` of the source: a title beginning with
`"Static Semantics:"` cannot carry the `user-code` effect; everything else
can. -/
def Clause.canHaveEffect (c : Clause) (effectName : String) : Bool :=
  if (match c.title with
      | some t => jsStartsWith t "Static Semantics:"
      | none => false) then
    if effectName == "user-code" then false else true
  else true

/-- The number computation of `Clause.enter`: `nextNumber` starts as the
empty string and the numberer (`clauseNumberer.next`, an external stateful
collaborator of state type `σ`) is invoked only when the node is not an
`EMU-INTRO`. -/
def Clause.enterNumber {σ : Type} (nodeName : String) (next : σ → String × σ)
    (st : σ) : String × σ :=
  if nodeName != "EMU-INTRO" then next st else ("", st)

/-- The `forEach((note, i) => note.build(i + 1))` branch: every element is
built with its 1-based position as label. -/
def labelSeq {α : Type} (i : Nat) : List α → List (α × Option Nat)
  | [] => []
  | a :: as => (a, some (i + 1)) :: labelSeq (i + 1) as

/-- `Clause.prototype.buildNotes`: a single note is built without a label,
otherwise notes are built with 1-based labels; editor notes are always built
without labels afterwards.  The result records each built item with the label
it was built with. -/
def buildNotes {α : Type} (notes editorNotes : List α) : List (α × Option Nat) :=
  (if notes.length = 1 then notes.map (fun n => (n, none)) else labelSeq 0 notes)
    ++ editorNotes.map (fun n => (n, none))

/-- `Clause.prototype.buildExamples`: the identical single/multiple rule. -/
def buildExamples {α : Type} (examples : List α) : List (α × Option Nat) :=
  if examples.length = 1 then examples.map (fun e => (e, none)) else labelSeq 0 examples

/-- Spec-side reformulation of the special-kinds label: the display names of
the attributes present, in the fixed order Normative Optional, Legacy,
Deprecated, joined by `", "`; no label when none are present.  Depends only
on membership, not on attribute order. -/
def specTagText (nodeAttrs : List String) : Option String :=
  let names :=
    (if "normative-optional" ∈ nodeAttrs then ["Normative Optional"] else [])
      ++ (if "legacy" ∈ nodeAttrs then ["Legacy"] else [])
      ++ (if "deprecated" ∈ nodeAttrs then ["Deprecated"] else [])
  if names = [] then none else some (String.intercalate ", " names)

/-- The signature stored in an op entry (`none` for clause entries). -/
def BiblioEntry.opSignature : BiblioEntry → Option Signature
  | .op _ _ _ s _ _ _ => s
  | .clause _ _ _ _ _ => none

/-! ## Concrete example values (used by closed theorems) -/

/-- A concrete clause carrying aoid `Foo` in the spec-level namespace. -/
def exClause1 : Clause :=
  { id := "sec-a", nsp := "root", aoid := some "Foo",
    type := some "abstract operation", title := some "Foo ( )",
    titleHTML := "Foo ( )", number := "1", signature := none, effects := [],
    skipGlobalChecks := false, skipReturnChecks := false }

/-- A second concrete clause declaring the same aoid `Foo`. -/
def exClause2 : Clause :=
  { exClause1 with id := "sec-b", number := "2" }

/-- A concrete signature whose return type is a union mixing a
completion-wrapper member with a non-completion member. -/
def exSigUnion : Signature :=
  { parameters := [], optionalParameters := [],
    ret := some (Ty.unionOf [Ty.completion (Ty.named "Completion Record"),
                             Ty.named "Number"]) }

/-- A concrete clause whose return type is the mixed union above. -/
def exClause6 : Clause :=
  { exClause1 with id := "sec-c", number := "3", signature := some exSigUnion }

/-- A concrete clause whose own namespace (`namespace` attribute) differs
from the spec-level namespace. -/
def exClauseOther : Clause :=
  { exClause1 with id := "sec-foo", nsp := "other" }

/-- A biblio that already holds an op entry for aoid `Foo` in the clause's
own namespace `other` (not in the spec-level namespace `root`). -/
def exBiblioOther : List (String × BiblioEntry) :=
  [("other", BiblioEntry.op "Foo" "sec-x" none none [] false false)]

/-- A concrete clause titled `Static Semantics: ToBoolean`. -/
def exClauseSS : Clause :=
  { exClause1 with id := "sec-ss", aoid := none, title := some "Static Semantics: ToBoolean" }

/-! ## Helper lemmas -/

theorem labelSeq_map_fst {α : Type} (l : List α) (i : Nat) :
    (labelSeq i l).map Prod.fst = l := by
  induction l generalizing i with
  | nil => rfl
  | cons a as ih => simp [labelSeq, ih]

theorem labelSeq_map_snd {α : Type} (l : List α) (i : Nat) :
    (labelSeq i l).map Prod.snd = (List.range l.length).map (fun k => some (i + k + 1)) := by
  induction l generalizing i with
  | nil => rfl
  | cons a as ih =>
      simp only [labelSeq, List.map_cons, List.length_cons, List.range_succ_eq_map,
        List.map_map, ih]
      refine List.cons_eq_cons.mpr ⟨by simp, ?_⟩
      apply List.map_congr_left
      intro k _
      simp only [Function.comp_def, Nat.succ_eq_add_one, Option.some.injEq]
      omega

/-- C5: a failed header-grammar parse degrades gracefully: the signature
stays `null`, no diagnostic is emitted by this step, and the synthesized
preamble receives the literal placeholders `"UNKNOWN"` and
`"UNPARSEABLE ARGUMENTS"` (and, the embedding being a total function, the
clause is still processed). -/
theorem parse_failure_degrades_gracefully (tp : String → Except Nat Ty) :
    buildStructuredHeaderSig tp .failure =
      { signature := none, warnings := [], preambleName := "UNKNOWN",
        preambleParams := "UNPARSEABLE ARGUMENTS" } := rfl

/-- C7: a clause reports that it cannot carry the `user-code` effect exactly
when its title begins with `"Static Semantics:"`; every other clause
(including one with no title) reports that it can. -/
theorem static_semantics_user_code (c : Clause) :
    Clause.canHaveEffect c "user-code" = false ↔
      ∃ t, c.title = some t ∧ jsStartsWith t "Static Semantics:" = true := by
  cases htitle : c.title with
  | none => simp [Clause.canHaveEffect, htitle]
  | some t =>
      by_cases h : jsStartsWith t "Static Semantics:" = true
      · simp [Clause.canHaveEffect, htitle, h]
      · simp [Clause.canHaveEffect, htitle, h]

/-- C8: entering an introduction-kind node assigns the empty string as its
number and neither advances nor consults the clause numberer: whatever the
numberer's `next` function and current state, the state comes back unchanged
and the result does not depend on `next`. -/
theorem intro_clause_empty_number {σ : Type} (next : σ → String × σ) (st : σ) :
    Clause.enterNumber "EMU-INTRO" next st = ("", st) := by
  simp [Clause.enterNumber]

/-- C9: at exit, a single note is built without a label; two or more notes
are built with labels 1, 2, … in declaration order; editor notes are always
built without labels; and examples follow the identical single/multiple rule
independently of the notes. -/
theorem notes_examples_labeling {α : Type} (notes editorNotes examples : List α) :
    ((buildNotes notes editorNotes).map Prod.fst = notes ++ editorNotes)
    ∧ ((buildNotes notes editorNotes).map Prod.snd =
        (if notes.length = 1 then [none]
         else (List.range notes.length).map (fun k => some (k + 1)))
          ++ List.replicate editorNotes.length none)
    ∧ ((buildExamples examples).map Prod.fst = examples)
    ∧ ((buildExamples examples).map Prod.snd =
        if examples.length = 1 then [none]
        else (List.range examples.length).map (fun k => some (k + 1))) := by
  refine ⟨?_, ?_, ?_, ?_⟩
  · by_cases h : notes.length = 1
    · simp [buildNotes, h, Function.comp_def]
    · simp [buildNotes, h, labelSeq_map_fst, Function.comp_def]
  · by_cases h : notes.length = 1
    · obtain ⟨a, rfl⟩ := List.length_eq_one.mp h
      simp [buildNotes, Function.comp_def]
    · simp only [buildNotes, h, if_false, List.map_append, labelSeq_map_snd]
      congr 1
      · simp
      · simp [Function.comp_def]
  · by_cases h : examples.length = 1
    · simp [buildExamples, h, Function.comp_def]
    · simp [buildExamples, h, labelSeq_map_fst, Function.comp_def]
  · by_cases h : examples.length = 1
    · obtain ⟨a, rfl⟩ := List.length_eq_one.mp h
      simp [buildExamples, Function.comp_def]
    · simp [buildExamples, h, labelSeq_map_snd]

theorem jsIndexOfAux_eq_none {c : Char} {s : List Char} :
    jsIndexOfAux c s = none ↔ c ∉ s := by
  induction s with
  | nil => simp [jsIndexOfAux]
  | cons a as ih =>
      simp only [jsIndexOfAux, List.mem_cons]
      by_cases hac : a = c
      · simp [hac]
      · rw [if_neg hac, Option.map_eq_none', ih]
        have : ¬c = a := fun hc => hac hc.symm
        simp [this]

theorem jsIndexOfAux_take {c : Char} {s : List Char} {n : Nat}
    (h : jsIndexOfAux c s = some n) :
    s.take n = s.takeWhile (fun x => x != c) := by
  induction s generalizing n with
  | nil => simp [jsIndexOfAux] at h
  | cons a as ih =>
      by_cases hac : a = c
      · rw [jsIndexOfAux, if_pos hac] at h
        obtain rfl : n = 0 := by simpa using h.symm
        simp [List.takeWhile, hac]
      · rw [jsIndexOfAux, if_neg hac, Option.map_eq_some'] at h
        obtain ⟨m, hm, rfl⟩ := h
        have hbne : (a != c) = true := by simpa [bne_iff_ne] using hac
        simp [List.takeWhile, hbne, ih hm]

theorem jsIndexOfAux_lt {c : Char} {s : List Char} {n : Nat}
    (h : jsIndexOfAux c s = some n) : n < s.length := by
  induction s generalizing n with
  | nil => simp [jsIndexOfAux] at h
  | cons a as ih =>
      by_cases hac : a = c
      · rw [jsIndexOfAux, if_pos hac] at h
        obtain rfl : n = 0 := by simpa using h.symm
        simp
      · rw [jsIndexOfAux, if_neg hac, Option.map_eq_some'] at h
        obtain ⟨m, hm, rfl⟩ := h
        have := ih hm
        simp
        omega

theorem take_jsIndexOf {s : List Char} (h : s.contains '(' = true) :
    s.take (jsIndexOf '(' s).toNat = s.takeWhile (fun x => x != '(') := by
  have hmem : '(' ∈ s := by simpa [List.contains, List.elem_iff] using h
  cases haux : jsIndexOfAux '(' s with
  | none => exact absurd hmem (jsIndexOfAux_eq_none.mp haux)
  | some n =>
      rw [jsIndexOf, haux]
      simpa using jsIndexOfAux_take haux

theorem drop_jsLastIndexOf (s : List Char) :
    s.drop (jsLastIndexOf ')' s + 1).toNat
      = (s.reverse.takeWhile (fun x => x != ')')).reverse := by
  cases haux : jsIndexOfAux ')' s.reverse with
  | none =>
      have hnm : ')' ∉ s.reverse := jsIndexOfAux_eq_none.mp haux
      have hself : s.reverse.takeWhile (fun x => x != ')') = s.reverse :=
        List.takeWhile_eq_self_iff.mpr fun x hx => by
          simp only [bne_iff_ne, ne_eq, decide_eq_true_eq]
          exact fun hxc => hnm (hxc ▸ hx)
      rw [jsLastIndexOf, haux, hself, List.reverse_reverse]
      norm_num
  | some n =>
      have hn : n < s.length := by
        have := jsIndexOfAux_lt haux
        simpa using this
      have harith : (((s.length - 1 - n : Nat) : Int) + 1).toNat = s.length - n := by
        omega
      rw [jsLastIndexOf, haux, harith, ← jsIndexOfAux_take haux,
        List.take_reverse, List.reverse_reverse]

/-- Amended C3: the rendered-header stripping applies to clauses whose
declared kind is the shorthand `'sdo'` (not the long form): for kind `'sdo'`
and a current header containing `'('`, the rendered header is the text
before the first `'('` followed by the text after the last `')'`, trimmed —
the parameter list is removed. -/
theorem sdo_kind_header_stripped (fh : Option (List Char)) (inner : List Char)
    (h : (fh.getD inner).contains '(' = true) :
    renderedHeader (some "sdo") fh inner = specSdoStrip (fh.getD inner) := by
  have hcond : (((some "sdo" : Option String) == some "sdo")
      && (fh.getD inner).contains '(') = true := by
    rw [h]
    rfl
  rw [renderedHeader]
  simp only [hcond, if_pos]
  rw [sdoStripHeader, specSdoStrip, take_jsIndexOf h, drop_jsLastIndexOf]

/-- Witness for the amended C3 at a concrete input: the sdo header
`Foo ( _x_ )` renders as the strip result (which is `Foo`). -/
theorem sdo_kind_header_stripped_witness :
    ((some ("Foo ( _x_ )".toList)).getD []).contains '(' = true
    ∧ renderedHeader (some "sdo") (some ("Foo ( _x_ )".toList)) []
        = specSdoStrip ((some ("Foo ( _x_ )".toList)).getD [])
    ∧ specSdoStrip ((some ("Foo ( _x_ )".toList)).getD []) = "Foo".toList :=
  ⟨by decide, sdo_kind_header_stripped (some ("Foo ( _x_ )".toList)) [] (by decide),
    by decide⟩

/-- Counterexample to C3 as stated: a clause whose declared kind is the long
form `"syntax-directed operation"` with a structured header containing a
parameter list keeps that parameter list in the rendered header (only the
`'sdo'` shorthand triggers the stripping). -/
theorem sdo_longform_header_not_stripped :
    renderedHeader (some "syntax-directed operation")
        (some ("Foo ( _x_ )".toList)) [] = "Foo ( _x_ )".toList
    ∧ (renderedHeader (some "syntax-directed operation")
        (some ("Foo ( _x_ )".toList)) []).contains '(' = true := by
  exact ⟨rfl, by decide⟩

/-- Witness for C5 at a concrete input: with any concrete type parser, a
failed parse yields no signature, no diagnostic, and the two placeholders. -/
theorem parse_failure_degrades_gracefully_witness :
    buildStructuredHeaderSig (fun _ => Except.error 0) ParseResult.failure =
      { signature := none, warnings := [], preambleName := "UNKNOWN",
        preambleParams := "UNPARSEABLE ARGUMENTS" } :=
  parse_failure_degrades_gracefully (fun _ => Except.error 0)

/-- Witness for C7 at a concrete input: the clause titled
`Static Semantics: ToBoolean` cannot carry the `user-code` effect. -/
theorem static_semantics_user_code_witness :
    Clause.canHaveEffect exClauseSS "user-code" = false :=
  (static_semantics_user_code exClauseSS).mpr
    ⟨"Static Semantics: ToBoolean", rfl, by decide⟩

/-- Sanity check: a clause whose title does not begin with
`Static Semantics:` can carry the `user-code` effect. -/
theorem non_static_semantics_user_code_check :
    Clause.canHaveEffect exClause1 "user-code" = true := by decide

/-- Witness for C8 at a concrete input: an introduction node entered with a
counting numberer in state 5 gets number `""` and leaves the state at 5. -/
theorem intro_clause_empty_number_witness :
    Clause.enterNumber "EMU-INTRO" (fun n => (toString n, n + 1)) (5 : Nat)
      = ("", 5) :=
  intro_clause_empty_number (fun n => (toString n, n + 1)) 5

/-- Witness for C9 at concrete inputs: one note (unlabeled) with one editor
note (unlabeled), and two examples labeled 1 and 2. -/
theorem notes_examples_labeling_witness :
    ((buildNotes ["n1"] ["e1"]).map Prod.fst = ["n1"] ++ ["e1"])
    ∧ ((buildNotes ["n1"] ["e1"]).map Prod.snd =
        (if (["n1"] : List String).length = 1 then [none]
         else (List.range (["n1"] : List String).length).map (fun k => some (k + 1)))
          ++ List.replicate (["e1"] : List String).length none)
    ∧ ((buildExamples ["x1", "x2"]).map Prod.fst = ["x1", "x2"])
    ∧ ((buildExamples ["x1", "x2"]).map Prod.snd =
        if (["x1", "x2"] : List String).length = 1 then [none]
        else (List.range (["x1", "x2"] : List String).length).map
          (fun k => some (k + 1))) :=
  notes_examples_labeling ["n1"] ["e1"] ["x1", "x2"]

/-- C4: the parsed name becomes the clause's aoid (and is written to the
node's `aoid` attribute) exactly when the header is not a redefinition, the
node carries no explicit `aoid` attribute, the parsed name is non-null, and
the declared kind is one of the fixed algorithm-like kinds; and a
non-redefinition clause that carries an explicit `aoid` attribute together
with a structured header gets a `header-format` warning and no new aoid. -/
theorem aoid_auto_assignment (r h : Bool) (p name ty : Option String) :
    ((assignAoid r h p name ty).setAttr.isSome = true ↔
      r = false ∧ h = false ∧ name.isSome = true
        ∧ ∃ t, ty = some t ∧ aoidTypes.contains t = true)
    ∧ ((assignAoid r h p name ty).setAttr.isSome = true →
        (assignAoid r h p name ty).setAttr = name
          ∧ (assignAoid r h p name ty).aoid = name)
    ∧ ((assignAoid r h p name ty).warnings = ["header-format"] ↔
        r = false ∧ h = true)
    ∧ (r = false → h = true →
        (assignAoid r h p name ty).setAttr = none
          ∧ (assignAoid r h p name ty).aoid = p) := by
  cases r with
  | true => simp [assignAoid]
  | false =>
      cases h with
      | true => simp [assignAoid]
      | false =>
          cases name with
          | none => cases ty <;> simp [assignAoid]
          | some n =>
              cases ty with
              | none => simp [assignAoid]
              | some t =>
                  by_cases hc : t ∈ aoidTypes
                  · simp [assignAoid, hc]
                  · simp [assignAoid, hc]

/-- Witness for C4 at a concrete input: a non-redefinition clause without an
`aoid` attribute, parsed name `"Foo"`, kind `"abstract operation"`, receives
`"Foo"` as attribute value and aoid. -/
theorem aoid_auto_assignment_witness :
    (assignAoid false false none (some "Foo") (some "abstract operation")).setAttr
        = some "Foo"
    ∧ (assignAoid false false none (some "Foo") (some "abstract operation")).aoid
        = some "Foo" :=
  (aoid_auto_assignment false false none (some "Foo")
    (some "abstract operation")).2.1 (by decide)

/-- C10: the special-kinds label prepended at exit lists the display names in
the fixed order Normative Optional, Legacy, Deprecated (joined by `", "`),
depending only on which special-kind attributes are present — any
permutation of the node's attribute list yields the same label — and a node
with none of the three attributes gets no label (all captured by the
membership-only reformulation `specTagText`). -/
theorem special_kinds_label_fixed_order (attrs attrs2 : List String)
    (hperm : attrs.Perm attrs2) :
    tagText attrs = specTagText attrs ∧ tagText attrs = tagText attrs2 := by
  have key : ∀ l : List String, tagText l = specTagText l := by
    intro l
    by_cases h1 : "normative-optional" ∈ l
      <;> by_cases h2 : "legacy" ∈ l
      <;> by_cases h3 : "deprecated" ∈ l
      <;> simp [tagText, specTagText, specialAttributes, SPECIAL_KINDS,
            SPECIAL_KINDS_MAP, List.contains, List.elem_iff, List.lookup,
            h1, h2, h3, String.intercalate]
  have spec_perm : specTagText attrs = specTagText attrs2 := by
    simp only [specTagText, hperm.mem_iff]
  exact ⟨key attrs, by rw [key attrs, key attrs2, spec_perm]⟩

/-- Witness for C10 at a concrete input: the two orders of writing the
`deprecated` and `legacy` attributes give the same label. -/
theorem special_kinds_label_fixed_order_witness :
    tagText ["deprecated", "legacy"] = specTagText ["deprecated", "legacy"]
    ∧ tagText ["deprecated", "legacy"] = tagText ["legacy", "deprecated"] :=
  special_kinds_label_fixed_order ["deprecated", "legacy"]
    ["legacy", "deprecated"] (by decide)

theorem mem_keysForNamespace {ns a : String} {b : List (String × BiblioEntry)} :
    a ∈ keysForNamespace ns b ↔ ∃ p ∈ b, p.1 = ns ∧ p.2.opAoid = some a := by
  simp only [keysForNamespace, List.mem_filterMap]
  constructor
  · rintro ⟨p, hp, hf⟩
    by_cases hns : p.1 == ns
    · exact ⟨p, hp, by simpa using hns, by simpa [hns] using hf⟩
    · simp [hns] at hf
  · rintro ⟨p, hp, hns, haoid⟩
    exact ⟨p, hp, by simp [hns, haoid]⟩

theorem contains_eq_true_iff {l : List String} {a : String} :
    l.contains a = true ↔ a ∈ l := by
  simp [List.contains, List.elem_iff]

theorem not_mem_of_contains_eq_false {l : List String} {a : String}
    (h : l.contains a = false) : a ∉ l := by
  intro hm
  rw [← contains_eq_true_iff, h] at hm
  exact Bool.false_ne_true hm

theorem filter_not_in_keys {ns a : String} {b : List (String × BiblioEntry)}
    (h : (keysForNamespace ns b).contains a = false) :
    b.filter (fun p => p.1 == ns && (p.2.opAoid == some a)) = [] := by
  rw [List.filter_eq_nil_iff]
  intro p hp hpred
  rw [Bool.and_eq_true, beq_iff_eq, beq_iff_eq] at hpred
  have hmem : a ∈ keysForNamespace ns b :=
    mem_keysForNamespace.mpr ⟨p, hp, hpred.1, hpred.2⟩
  rw [← contains_eq_true_iff] at hmem
  rw [h] at hmem
  exact Bool.false_ne_true hmem

/-- Amended C1: the duplicate check and both bibliography insertions of
`Clause.exit` happen in the spec-level namespace `spec.namespace` —
regardless of the clause's own namespace — so every entry `exit` appends is
tagged `specNs` (the source notes "clauses are always at the spec-level
namespace"). -/
theorem exit_adds_entries_in_spec_namespace (specNs : String)
    (b : List (String × BiblioEntry)) (c : Clause) (attrs : List String) :
    (Clause.exit specNs b c attrs).biblio.take b.length = b
    ∧ ((Clause.exit specNs b c attrs).biblio.drop b.length).all
        (fun p => p.1 == specNs) = true := by
  constructor
  · show (b ++ exitOps specNs b c ++ [(specNs, clauseEntryOf c)]).take b.length = b
    rw [List.append_assoc, List.take_left]
  · show ((b ++ exitOps specNs b c ++ [(specNs, clauseEntryOf c)]).drop b.length).all
        (fun p => p.1 == specNs) = true
    rw [List.append_assoc, List.drop_left]
    have hops : (exitOps specNs b c).all (fun p => p.1 == specNs) = true := by
      rw [exitOps]
      split
      · split
        · rfl
        · simp
      · rfl
    simp [List.all_append, hops]

/-- Witness for the amended C1 at a concrete input: exiting `exClauseOther`
appends only entries tagged with the spec-level namespace `root`. -/
theorem exit_adds_entries_in_spec_namespace_witness :
    (Clause.exit "root" exBiblioOther exClauseOther []).biblio.take
        exBiblioOther.length = exBiblioOther
    ∧ ((Clause.exit "root" exBiblioOther exClauseOther []).biblio.drop
        exBiblioOther.length).all (fun p => p.1 == "root") = true :=
  exit_adds_entries_in_spec_namespace "root" exBiblioOther exClauseOther []

/-- Counterexample to C1 as stated: a clause whose own namespace is `other`
(differing from the spec-level namespace `root`) and whose aoid `Foo`
already has an op entry in `other`.  Were the duplicate check and the op
insertion performed in the clause's own namespace, this exit would emit a
`duplicate-definition` diagnostic and add no op entry; instead it emits no
diagnostic, adds no op entry to `other`, and adds the op entry to `root`. -/
theorem exit_op_namespace_not_clause_namespace :
    exClauseOther.nsp = "other"
    ∧ exClauseOther.aoid = some "Foo"
    ∧ (keysForNamespace "other" exBiblioOther).contains "Foo" = true
    ∧ (Clause.exit "root" exBiblioOther exClauseOther []).warnings = []
    ∧ ((Clause.exit "root" exBiblioOther exClauseOther []).biblio.filter
        (fun p => p.1 == "other" && p.2.isOp)).length
        = (exBiblioOther.filter (fun p => p.1 == "other" && p.2.isOp)).length
    ∧ ((Clause.exit "root" exBiblioOther exClauseOther []).biblio.filter
        (fun p => p.1 == "root" && p.2.isOp)).length = 1 := by
  exact ⟨rfl, rfl, by decide, by decide, by decide, by decide⟩

/-- C2: two clauses declaring the same (fresh) aoid produce, across their two
exits, exactly one `duplicate-definition` diagnostic and exactly one op
entry for that aoid — the first clause's — while both clauses still receive
clause-type bibliography entries. -/
theorem duplicate_aoid_one_diagnostic_one_op (specNs a : String)
    (b0 : List (String × BiblioEntry)) (c1 c2 : Clause) (at1 at2 : List String)
    (h1 : c1.aoid = some a) (h2 : c2.aoid = some a) (ha : a ≠ "")
    (hfresh : (keysForNamespace specNs b0).contains a = false) :
    (Clause.exit specNs b0 c1 at1).warnings.count "duplicate-definition"
      + (Clause.exit specNs (Clause.exit specNs b0 c1 at1).biblio c2 at2).warnings.count
          "duplicate-definition" = 1
    ∧ (Clause.exit specNs (Clause.exit specNs b0 c1 at1).biblio c2 at2).biblio.filter
        (fun p => p.1 == specNs && (p.2.opAoid == some a)) = [(specNs, opEntryOf a c1)]
    ∧ (specNs, clauseEntryOf c1)
        ∈ (Clause.exit specNs (Clause.exit specNs b0 c1 at1).biblio c2 at2).biblio
    ∧ (specNs, clauseEntryOf c2)
        ∈ (Clause.exit specNs (Clause.exit specNs b0 c1 at1).biblio c2 at2).biblio := by
  have hfresh2 : a ∉ keysForNamespace specNs b0 := not_mem_of_contains_eq_false hfresh
  have hops1 : exitOps specNs b0 c1 = [(specNs, opEntryOf a c1)] := by
    simp [exitOps, h1, optTruthy, ha, hfresh2]
  have hw1 : exitWarns specNs b0 c1
      = if completionUnionWarn c1.signature then ["completion-union"] else [] := by
    simp [exitWarns, h1, optTruthy, ha, hfresh2]
  have hb1 : (Clause.exit specNs b0 c1 at1).biblio
      = b0 ++ [(specNs, opEntryOf a c1)] ++ [(specNs, clauseEntryOf c1)] := by
    simp [Clause.exit, hops1]
  have hkeys : a ∈ keysForNamespace specNs
      (b0 ++ [(specNs, opEntryOf a c1), (specNs, clauseEntryOf c1)]) :=
    mem_keysForNamespace.mpr ⟨(specNs, opEntryOf a c1), by simp, rfl, rfl⟩
  have hops2 : exitOps specNs (Clause.exit specNs b0 c1 at1).biblio c2 = [] := by
    simp [exitOps, h2, optTruthy, ha, hb1, hkeys]
  have hw2 : exitWarns specNs (Clause.exit specNs b0 c1 at1).biblio c2
      = ["duplicate-definition"] := by
    simp [exitWarns, h2, optTruthy, ha, hb1, hkeys]
  refine ⟨?_, ?_, ?_, ?_⟩
  · show (exitWarns specNs b0 c1).count "duplicate-definition"
      + (exitWarns specNs (Clause.exit specNs b0 c1 at1).biblio c2).count
          "duplicate-definition" = 1
    rw [hw1, hw2]
    cases hcu : completionUnionWarn c1.signature <;> simp [List.count_cons]
  · show ((Clause.exit specNs b0 c1 at1).biblio
        ++ exitOps specNs (Clause.exit specNs b0 c1 at1).biblio c2
        ++ [(specNs, clauseEntryOf c2)]).filter
          (fun p => p.1 == specNs && (p.2.opAoid == some a))
      = [(specNs, opEntryOf a c1)]
    rw [hops2, hb1, List.append_nil, List.filter_append, List.filter_append,
      List.filter_append, filter_not_in_keys hfresh]
    simp [opEntryOf, clauseEntryOf, BiblioEntry.opAoid, List.filter]
  · show (specNs, clauseEntryOf c1) ∈ (Clause.exit specNs b0 c1 at1).biblio
        ++ exitOps specNs (Clause.exit specNs b0 c1 at1).biblio c2
        ++ [(specNs, clauseEntryOf c2)]
    rw [hb1]
    simp
  · show (specNs, clauseEntryOf c2) ∈ (Clause.exit specNs b0 c1 at1).biblio
        ++ exitOps specNs (Clause.exit specNs b0 c1 at1).biblio c2
        ++ [(specNs, clauseEntryOf c2)]
    simp

/-- Witness for C2 at concrete inputs: `exClause1` and `exClause2` both
declare aoid `Foo`; their exits against an empty biblio give one
`duplicate-definition` diagnostic, one op entry (the first clause's), and
both clause entries. -/
theorem duplicate_aoid_one_diagnostic_one_op_witness :
    (Clause.exit "root" [] exClause1 []).warnings.count "duplicate-definition"
      + (Clause.exit "root" (Clause.exit "root" [] exClause1 []).biblio exClause2
          []).warnings.count "duplicate-definition" = 1
    ∧ (Clause.exit "root" (Clause.exit "root" [] exClause1 []).biblio exClause2
        []).biblio.filter (fun p => p.1 == "root" && (p.2.opAoid == some "Foo"))
        = [("root", opEntryOf "Foo" exClause1)]
    ∧ ("root", clauseEntryOf exClause1)
        ∈ (Clause.exit "root" (Clause.exit "root" [] exClause1 []).biblio exClause2
            []).biblio
    ∧ ("root", clauseEntryOf exClause2)
        ∈ (Clause.exit "root" (Clause.exit "root" [] exClause1 []).biblio exClause2
            []).biblio :=
  duplicate_aoid_one_diagnostic_one_op "root" "Foo" [] exClause1 exClause2 [] []
    rfl rfl (by decide) rfl

/-- C6: a clause whose compiled return type is a union containing at least
one completion-wrapper member and at least one non-completion member emits,
at exit, exactly the one `completion-union` diagnostic, and the op entry is
still added with its signature intact. -/
theorem completion_union_diagnostic (specNs a : String)
    (b : List (String × BiblioEntry)) (c : Clause) (attrs : List String)
    (sig : Signature) (ts : List Ty)
    (h1 : c.aoid = some a) (ha : a ≠ "")
    (hfresh : (keysForNamespace specNs b).contains a = false)
    (hsig : c.signature = some sig) (hret : sig.ret = some (Ty.unionOf ts))
    (hcomp : ts.any (fun t => t.kind == "completion") = true)
    (hnon : ts.any (fun t => !(t.kind == "completion")) = true) :
    (Clause.exit specNs b c attrs).warnings = ["completion-union"]
    ∧ (specNs, opEntryOf a c) ∈ (Clause.exit specNs b c attrs).biblio
    ∧ (opEntryOf a c).opSignature = some sig := by
  have hfresh2 : a ∉ keysForNamespace specNs b := not_mem_of_contains_eq_false hfresh
  have hcu : completionUnionWarn c.signature = true := by
    rw [hsig]
    simp only [completionUnionWarn]
    rw [hret]
    show (Ty.kind (Ty.unionOf ts) == "union"
        && (Ty.types (Ty.unionOf ts)).any (fun t => t.kind == "completion")
        && (Ty.types (Ty.unionOf ts)).any (fun t => !(t.kind == "completion"))) = true
    rw [show Ty.kind (Ty.unionOf ts) = "union" from rfl,
      show Ty.types (Ty.unionOf ts) = ts from rfl, hcomp, hnon]
    rfl
  refine ⟨?_, ?_, ?_⟩
  · show exitWarns specNs b c = ["completion-union"]
    simp [exitWarns, h1, optTruthy, ha, hfresh2, hcu]
  · show (specNs, opEntryOf a c) ∈ b ++ exitOps specNs b c
        ++ [(specNs, clauseEntryOf c)]
    have hops : exitOps specNs b c = [(specNs, opEntryOf a c)] := by
      simp [exitOps, h1, optTruthy, ha, hfresh2]
    rw [hops]
    simp
  · simp [opEntryOf, BiblioEntry.opSignature, hsig]

/-- Witness for C6 at a concrete input: `exClause6` returns
`a Completion Record | a Number`; its exit emits exactly one
`completion-union` diagnostic and still adds the op entry with the
signature. -/
theorem completion_union_diagnostic_witness :
    (Clause.exit "root" [] exClause6 []).warnings = ["completion-union"]
    ∧ ("root", opEntryOf "Foo" exClause6) ∈ (Clause.exit "root" [] exClause6 []).biblio
    ∧ (opEntryOf "Foo" exClause6).opSignature = some exSigUnion :=
  completion_union_diagnostic "root" "Foo" [] exClause6 [] exSigUnion
    [Ty.completion (Ty.named "Completion Record"), Ty.named "Number"]
    rfl (by decide) rfl rfl rfl rfl rfl

end Ecmarkup
